import Mathlib

/- Shallow embedding of the Alfis Android native controller
   (src/alfis/src/lib.rs).  The stateful Rust code is translated into pure
   Lean: the global statics become an explicit GlobalState record, the JNI
   entry points become state-passing functions, and the external Alfis/DNS
   capabilities (packet codec, query resolution, sqlite storage, chain
   construction, the P2P loop) become oracle parameters, since the source
   only consumes their interfaces.  Machine integers that matter (u16 length
   headers) are Nat with explicit % 256 arithmetic. -/

namespace AlfisAndroid

/- LogBuffer: add_log_message (lib.rs lines 507-525).  The VecDeque is a
   List String with its front at the head: push_back appends at the end and
   the len > 100 check pops the front (oldest) element. -/

def fmtLog (ts : Nat) (msg : String) : String :=
  "[" ++ toString ts ++ "] " ++ msg

def appendBounded (buf : List String) (line : String) : List String :=
  let b := buf ++ [line]
  if b.length > 100 then b.drop 1 else b

def appendMsgs (msgs : List (Nat × String)) (buf : List String) : List String :=
  msgs.foldl (fun b m => appendBounded b (fmtLog m.1 m.2)) buf

lemma appendMsgs_eq (msgs : List (Nat × String)) :
    ∀ buf : List String, buf.length ≤ 100 →
      appendMsgs msgs buf =
        (buf ++ msgs.map (fun m => fmtLog m.1 m.2)).drop
          (buf.length + msgs.length - 100) := by
  induction msgs with
  | nil =>
    intro buf h
    simp [appendMsgs, Nat.sub_eq_zero_of_le h]
  | cons m ms ih =>
    intro buf h
    have hstep : appendMsgs (m :: ms) buf =
        appendMsgs ms (appendBounded buf (fmtLog m.1 m.2)) := rfl
    rcases Nat.lt_or_ge buf.length 100 with hlt | hge
    · have hb : appendBounded buf (fmtLog m.1 m.2) = buf ++ [fmtLog m.1 m.2] := by
        unfold appendBounded
        simp only [List.length_append, List.length_singleton, List.length_nil, List.length_cons]
        have hng : ¬ buf.length + 1 > 100 := by omega
        simp [hng]
      have hlen : (buf ++ [fmtLog m.1 m.2]).length ≤ 100 := by
        simp only [List.length_append, List.length_singleton, List.length_nil, List.length_cons]; omega
      rw [hstep, hb, ih _ hlen]
      have hidx : (buf ++ [fmtLog m.1 m.2]).length + ms.length - 100 =
          buf.length + (m :: ms).length - 100 := by
        simp only [List.length_append, List.length_singleton, List.length_nil,
          List.length_cons]
        omega
      rw [hidx]
      have hlist : buf ++ [fmtLog m.1 m.2] ++ ms.map (fun x => fmtLog x.1 x.2) =
          buf ++ (m :: ms).map (fun x => fmtLog x.1 x.2) := by
        simp
      rw [hlist]
    · have heq : buf.length = 100 := le_antisymm h hge
      obtain ⟨a, t, rfl⟩ : ∃ a t, buf = a :: t := by
        cases buf with
        | nil => simp at heq
        | cons a t => exact ⟨a, t, rfl⟩
      have ht : t.length = 99 := by
        simpa using heq
      have hb : appendBounded (a :: t) (fmtLog m.1 m.2) =
          t ++ [fmtLog m.1 m.2] := by
        unfold appendBounded
        simp only [List.cons_append, List.length_cons, List.length_append,
          List.length_singleton, List.length_nil, List.length_cons]
        have hg : t.length + 1 + 1 > 100 := by omega
        simp [hg]
      have hlen : (t ++ [fmtLog m.1 m.2]).length ≤ 100 := by
        simp [ht]
      rw [hstep, hb, ih _ hlen]
      have hidx : (t ++ [fmtLog m.1 m.2]).length + ms.length - 100 =
          ms.length := by
        simp only [List.length_append, List.length_singleton, ht]
        omega
      have hidx2 : (a :: t).length + (m :: ms).length - 100 = ms.length + 1 := by
        simp only [List.length_cons, ht]
        omega
      rw [hidx, hidx2]
      simp [List.append_assoc, List.singleton_append]

lemma appendMsgs_length (msgs : List (Nat × String)) (buf : List String)
    (h : buf.length ≤ 100) :
    (appendMsgs msgs buf).length = min (buf.length + msgs.length) 100 := by
  rw [appendMsgs_eq msgs buf h]
  simp only [List.length_drop, List.length_append, List.length_map]
  omega

/- Global state of the native library: one field per `static mut` of
   lib.rs (lines 20-30).  Thread join handles are modelled by their
   presence (`Bool`); the chain inside the mutex-guarded Context is
   modelled by the only part the controller reads, its height; the
   ServerContext by the fields the controller branches on or reads. -/

structure Statistics where
  udpQueryCount : Nat
  tcpQueryCount : Nat
deriving DecidableEq, Repr

structure ServerCtx where
  enableUdp : Bool
  enableTcp : Bool
  statistics : Statistics
deriving DecidableEq, Repr

structure ChainCtx where
  height : Nat
deriving DecidableEq, Repr

structure GlobalState where
  alfisContext : Option ChainCtx
  serverContext : Option ServerCtx
  networkHandle : Bool
  udpHandle : Bool
  tcpHandle : Bool
  networkPeerCount : Nat
  dnsRunning : Bool
  dnsStartTime : Nat
  logBuffer : Option (List String)
  shutdownFlag : Bool
deriving DecidableEq, Repr

/- Initial values of the statics (lib.rs lines 20-30): everything None,
   zero or false. -/
def initialState : GlobalState :=
  { alfisContext := none, serverContext := none, networkHandle := false,
    udpHandle := false, tcpHandle := false, networkPeerCount := 0,
    dnsRunning := false, dnsStartTime := 0, logBuffer := none,
    shutdownFlag := false }

/- add_log_message (lib.rs lines 507-525) over the global state: when
   LOG_BUFFER is None the message is dropped; otherwise the timestamped
   line is pushed at the back and the front is evicted past 100 lines.
   The mutex lock is modelled as always succeeding (the embedding is
   sequential; lock poisoning is out of scope). -/
def add_log_message (now : Nat) (msg : String) (st : GlobalState) : GlobalState :=
  match st.logBuffer with
  | none => st
  | some buf => { st with logBuffer := some (appendBounded buf (fmtLog now msg)) }

/- getConsoleOutput (lib.rs lines 329-353): newline-joined snapshot, or the
   fixed sentinel string when the buffer was never initialized. -/
def getConsoleOutput (st : GlobalState) : String :=
  match st.logBuffer with
  | some buf => String.intercalate "\n" buf
  | none => "Log buffer not initialized"

/- initLogging (lib.rs lines 34-51): installs an empty buffer, then logs
   the initialization line through add_log_message. -/
def initLogging (now : Nat) (st : GlobalState) : GlobalState :=
  add_log_message now "Alfis Android logging initialized"
    { st with logBuffer := some [] }

/- isDnsServerRunning (lib.rs lines 231-242). -/
def isDnsServerRunning (st : GlobalState) : Bool :=
  st.dnsRunning

/- Field projections through add_log_message: only logBuffer changes. -/

@[simp] lemma add_log_message_dnsRunning (now : Nat) (msg : String)
    (st : GlobalState) : (add_log_message now msg st).dnsRunning = st.dnsRunning := by
  unfold add_log_message
  cases st.logBuffer <;> rfl

@[simp] lemma add_log_message_shutdownFlag (now : Nat) (msg : String)
    (st : GlobalState) : (add_log_message now msg st).shutdownFlag = st.shutdownFlag := by
  unfold add_log_message
  cases st.logBuffer <;> rfl

@[simp] lemma add_log_message_udpHandle (now : Nat) (msg : String)
    (st : GlobalState) : (add_log_message now msg st).udpHandle = st.udpHandle := by
  unfold add_log_message
  cases st.logBuffer <;> rfl

@[simp] lemma add_log_message_tcpHandle (now : Nat) (msg : String)
    (st : GlobalState) : (add_log_message now msg st).tcpHandle = st.tcpHandle := by
  unfold add_log_message
  cases st.logBuffer <;> rfl

@[simp] lemma add_log_message_networkHandle (now : Nat) (msg : String)
    (st : GlobalState) : (add_log_message now msg st).networkHandle = st.networkHandle := by
  unfold add_log_message
  cases st.logBuffer <;> rfl

@[simp] lemma add_log_message_alfisContext (now : Nat) (msg : String)
    (st : GlobalState) : (add_log_message now msg st).alfisContext = st.alfisContext := by
  unfold add_log_message
  cases st.logBuffer <;> rfl

@[simp] lemma add_log_message_serverContext (now : Nat) (msg : String)
    (st : GlobalState) : (add_log_message now msg st).serverContext = st.serverContext := by
  unfold add_log_message
  cases st.logBuffer <;> rfl

@[simp] lemma add_log_message_networkPeerCount (now : Nat) (msg : String)
    (st : GlobalState) : (add_log_message now msg st).networkPeerCount = st.networkPeerCount := by
  unfold add_log_message
  cases st.logBuffer <;> rfl

@[simp] lemma add_log_message_dnsStartTime (now : Nat) (msg : String)
    (st : GlobalState) : (add_log_message now msg st).dnsStartTime = st.dnsStartTime := by
  unfold add_log_message
  cases st.logBuffer <;> rfl

/- getDnsStats (lib.rs lines 246-296).  The Rust format string
   `{"blocks": {}, "peers": {}, "queries": {}, "responses": {}}` puts one
   space after each colon; both branches (running and stopped) use that
   same spacing.  queries and responses are both the sum
   udp_query_count + tcp_query_count.  The `_uptime` computation is dead
   (unused) and the lock-poisoning fallback is not modelled. -/

def runningStatsJson (blocks peers queries responses : Nat) : String :=
  "\x7b\"blocks\": " ++ toString blocks ++ ", \"peers\": " ++ toString peers ++
    ", \"queries\": " ++ toString queries ++ ", \"responses\": " ++
    toString responses ++ "\x7d"

def stoppedStatsJson : String :=
  "\x7b\"blocks\": 0, \"peers\": 0, \"queries\": 0, \"responses\": 0\x7d"

def getDnsStats (st : GlobalState) : String :=
  if st.dnsRunning then
    match st.serverContext, st.alfisContext with
    | some sctx, some actx =>
      let total := sctx.statistics.udpQueryCount + sctx.statistics.tcpQueryCount
      runningStatsJson actx.height st.networkPeerCount total total
    | _, _ => runningStatsJson 0 0 0 0
  else
    stoppedStatsJson

/- stopDnsServer (lib.rs lines 162-227).  When DNS_RUNNING: set the
   shutdown flag, clear DNS_RUNNING, join the UDP and TCP handles (the
   join outcome only affects which log line is appended; the `{:?}` error
   payload of a failed join is elided), drop the network handle, clear
   both context references and the peer count, and return true.  When not
   running: only a logcat warn! fires, the state is untouched, and the
   result is false. -/
def stopRunningBranch (now : Nat) (udpJoinOk tcpJoinOk : Bool)
    (st : GlobalState) : GlobalState :=
  let st1 := add_log_message now "Stopping DNS server..." st
  let st2 := { st1 with shutdownFlag := true, dnsRunning := false }
  let st3 := add_log_message now "Waiting for DNS threads to stop..." st2
  let st4 :=
    if st3.udpHandle then
      let sta := add_log_message now "Stopping UDP server thread..." st3
      let stb :=
        if udpJoinOk then add_log_message now "UDP server thread stopped" sta
        else add_log_message now "UDP thread join failed" sta
      { stb with udpHandle := false }
    else st3
  let st5 :=
    if st4.tcpHandle then
      let sta := add_log_message now "Stopping TCP server thread..." st4
      let stb :=
        if tcpJoinOk then add_log_message now "TCP server thread stopped" sta
        else add_log_message now "TCP thread join failed" sta
      { stb with tcpHandle := false }
    else st4
  let st6 :=
    if st5.networkHandle then
      let sta := add_log_message now "Stopping network thread..." st5
      { sta with networkHandle := false }
    else st5
  let st7 := { st6 with alfisContext := none, serverContext := none,
                        networkPeerCount := 0 }
  add_log_message now "DNS server stopped cleanly - port 5353 released" st7

def stopDnsServer (now : Nat) (udpJoinOk tcpJoinOk : Bool)
    (st : GlobalState) : Bool × GlobalState :=
  if st.dnsRunning then
    (true, stopRunningBranch now udpJoinOk tcpJoinOk st)
  else
    (false, st)

/- startDnsServer (lib.rs lines 55-157).  Spawn counts record how many
   initialization tasks, UDP workers, TCP workers and Network workers the
   call launches (thread::spawn / thread::Builder::spawn sites). -/

structure Spawns where
  initTasks : Nat
  udpWorkers : Nat
  tcpWorkers : Nat
  networkWorkers : Nat
deriving DecidableEq, Repr

/- Outcome of the detached initialization task
   (start_dns_server_internal, lib.rs lines 387-465), as an oracle: either
   it fails before any worker is spawned (settings / chain failure, the
   common failure path) with an error message, or it produces the contexts
   and spawns the workers (start_dns_server_with_context lines 530-569
   spawns the UDP worker iff enable_udp and the TCP worker iff enable_tcp;
   start_network_with_context lines 648-727 spawns the Network worker). -/
inductive InitOutcome where
  | failed (msg : String)
  | succeeded (chain : ChainCtx) (sctx : ServerCtx)
deriving DecidableEq, Repr

/- The JNI entry point.  `stringsOk` models the three env.get_string
   marshalling calls (all-or-nothing; a failure returns false before the
   DNS_RUNNING check but after the debug log line).  The detached
   initialization task is modelled as completing within the 500 ms grace
   sleep, after which the function returns the DNS_RUNNING value it
   observes.  Log lines appended inside start_dns_server_internal are
   elided; the lines appended by the entry point itself are kept. -/
def startDnsServer (now : Nat) (stringsOk : Bool) (init : InitOutcome)
    (st : GlobalState) : Bool × GlobalState × Spawns :=
  let st0 := add_log_message now "=== NATIVE LIBRARY UPDATED WITH DEBUG ===" st
  if !stringsOk then
    (false, st0, ⟨0, 0, 0, 0⟩)
  else if st0.dnsRunning then
    (true, add_log_message now "DNS server is already running" st0, ⟨0, 0, 0, 0⟩)
  else
    let st1 := add_log_message now "Starting DNS server..." st0
    let st2 := { st1 with shutdownFlag := false, networkPeerCount := 0 }
    match init with
    | .succeeded chain sctx =>
      let st3 := { st2 with alfisContext := some chain,
                            serverContext := some sctx,
                            udpHandle := sctx.enableUdp,
                            tcpHandle := sctx.enableTcp,
                            networkHandle := true,
                            dnsRunning := true, dnsStartTime := now }
      let st4 := add_log_message now "DNS server started successfully" st3
      let st5 := add_log_message now
        "UDP and TCP servers listening on configured address" st4
      let st6 := add_log_message now
        ("Blockchain loaded with " ++ toString chain.height ++ " blocks") st5
      let st7 := add_log_message now "Ready to resolve .alfis domains" st6
      let st8 := add_log_message now "DNS forwarding enabled for regular domains" st7
      (st8.dnsRunning, st8,
        ⟨1, if sctx.enableUdp then 1 else 0, if sctx.enableTcp then 1 else 0, 1⟩)
    | .failed msg =>
      let st3 := add_log_message now ("Failed to start DNS server: " ++ msg) st2
      let st4 := { st3 with dnsRunning := false }
      (st4.dnsRunning, st4, ⟨1, 0, 0, 0⟩)

/- create_chain_safely (lib.rs lines 596-645) and its fallback caller in
   start_dns_server_internal (lines 431-449).  The sqlite pre-flight and
   the Chain::new call are external capabilities, modelled as oracles
   indexed by the database path; `std::panic::catch_unwind` is modelled by
   Chain::new returning either a value or a panic payload (a String / &str
   message, or an unrecognized payload). -/

inductive PanicPayload where
  | msg (s : String)
  | unknownPayload
deriving DecidableEq, Repr

inductive ChainNewResult (C : Type) where
  | built (chain : C)
  | panicked (p : PanicPayload)
deriving DecidableEq, Repr

structure ChainEnv (C : Type) where
  sqliteOpen : String → Except String Unit
  sqliteExec : String → Except String Unit
  chainNew : String → ChainNewResult C

def create_chain_safely {C : Type} (env : ChainEnv C) (dbPath : String) :
    Except String C :=
  match env.sqliteOpen dbPath with
  | .error e => .error ("Database creation failed: " ++ e)
  | .ok _ =>
    match env.sqliteExec dbPath with
    | .error e => .error ("Database not functional: " ++ e)
    | .ok _ =>
      match env.chainNew dbPath with
      | .built c => .ok c
      | .panicked (.msg m) => .error ("Chain creation panicked: " ++ m)
      | .panicked .unknownPayload =>
        .error "Chain creation panicked with unknown error"

/- The paths create_chain_safely is invoked on by the fallback logic of
   start_dns_server_internal: the requested path, then :memory: exactly
   when the first attempt failed. -/
def chain_init_attempts {C : Type} (env : ChainEnv C) (dbPath : String) :
    List String :=
  match create_chain_safely env dbPath with
  | .ok _ => [dbPath]
  | .error _ => [dbPath, ":memory:"]

def chain_init {C : Type} (env : ChainEnv C) (dbPath : String) :
    Except String C :=
  match create_chain_safely env dbPath with
  | .ok c => .ok c
  | .error _ =>
    match create_chain_safely env ":memory:" with
    | .ok c => .ok c
    | .error _ => .error "Blockchain initialization failed completely"

/- Per-datagram body of run_controllable_udp_server (lib.rs lines
   756-787).  The 512-byte receive buffer: a datagram of size ≤ 512 is
   copied over a zeroed BytePacketBuffer, so the codec sees the payload
   zero-padded to 512 bytes.  decode is DnsPacket::from_buffer, execQuery
   is execute_query bound to the server context, encode is
   DnsPacket::write into a fresh 512-byte buffer (None = the Err of any of
   them).  The send_to result is discarded by the source (`let _ = ...`);
   the counter increment follows the send attempt. -/

def pad512 (bytes : List Nat) : List Nat :=
  bytes ++ List.replicate (512 - bytes.length) 0

structure UdpCodec (Q R : Type) where
  decode : List Nat → Option Q
  execQuery : Q → R
  encode : R → Option (List Nat)

structure UdpResult where
  reply : Option (List Nat)
  counterDelta : Nat
deriving DecidableEq, Repr

def udp_datagram_step {Q R : Type} (c : UdpCodec Q R) (sendOk : Bool)
    (datagram : List Nat) : UdpResult :=
  match c.decode (pad512 datagram) with
  | none => ⟨none, 0⟩
  | some req =>
    let resp := c.execQuery req
    match c.encode resp with
    | none => ⟨none, 0⟩
    | some out =>
      let _sent := sendOk
      ⟨some out, 1⟩

/- handle_tcp_client (lib.rs lines 842-872).  One read of up to 512 bytes
   (None = read error); if at least 2 bytes arrived the first two (the
   big-endian length header) are skipped and the rest is copied over a
   zeroed 512-byte BytePacketBuffer for decoding.  On success the response
   is written back as a 2-byte big-endian length header followed by the
   encoded bytes, and tcp_query_count is incremented; every failure path
   writes nothing and counts nothing. -/

structure TcpConn (Q R : Type) where
  readResult : Option (List Nat)
  decode : List Nat → Option Q
  execQuery : Q → R
  encode : R → Option (List Nat)

structure TcpResult where
  written : List Nat
  counterDelta : Nat
deriving DecidableEq, Repr

def be16 (n : Nat) : List Nat :=
  [n / 256 % 256, n % 256]

def handle_tcp_client {Q R : Type} (c : TcpConn Q R) : TcpResult :=
  match c.readResult with
  | none => ⟨[], 0⟩
  | some bytes =>
    if 2 ≤ bytes.length then
      match c.decode (pad512 (bytes.drop 2)) with
      | none => ⟨[], 0⟩
      | some req =>
        match c.encode (c.execQuery req) with
        | none => ⟨[], 0⟩
        | some out => ⟨be16 out.length ++ out, 1⟩
    else ⟨[], 0⟩

/- Event-bridge callback registered in start_network_with_context (lib.rs
   lines 650-701).  BridgeState packs the process-wide statics the
   callback touches: LAST_PEER_LOG and NETWORK_PEER_COUNT.  Log lines are
   kept structured; the rendered strings are "Warning: No peer connections
   active", "Network: N peers, B blocks", "Few peers: Consider checking
   network connectivity", "Syncing: H/T blocks (P%)" (P the f64 percentage
   100*have/height with one decimal, carried here by its have/height
   fields) and "Blockchain synchronization completed". -/

structure BridgeState where
  lastPeerLog : Nat
  peerCount : Nat
deriving DecidableEq, Repr

inductive NetEvent where
  | networkStatus (blocks domains keys nodes : Nat)
  | blockchainChanged (index : Nat)
  | newBlockReceived
  | syncingEvent (have_ height_ : Nat)
  | syncFinished
  | otherEvent
deriving DecidableEq, Repr

inductive LogLine where
  | noPeers
  | networkSummary (nodes blocks : Nat)
  | fewPeers
  | syncProgress (have_ height_ : Nat)
  | syncDone
deriving DecidableEq, Repr

def network_event_callback (now : Nat) (st : BridgeState) :
    NetEvent → BridgeState × List LogLine
  | .networkStatus blocks _ _ nodes =>
    let st1 : BridgeState := { st with peerCount := nodes }
    if 60 < now - st1.lastPeerLog then
      let st2 : BridgeState := { st1 with lastPeerLog := now }
      if nodes = 0 then (st2, [.noPeers])
      else if nodes < 2 then (st2, [.networkSummary nodes blocks, .fewPeers])
      else (st2, [.networkSummary nodes blocks])
    else (st1, [])
  | .syncingEvent hv ht => (st, [.syncProgress hv ht])
  | .syncFinished => (st, [.syncDone])
  | .blockchainChanged _ => (st, [])
  | .newBlockReceived => (st, [])
  | .otherEvent => (st, [])

def runBridge (st : BridgeState) :
    List (Nat × NetEvent) → List (Nat × NetEvent × List LogLine)
  | [] => []
  | (t, e) :: rest =>
    let p := network_event_callback t st e
    (t, e, p.2) :: runBridge p.1 rest

def isStatusEmit : Nat × NetEvent × List LogLine → Bool
  | (_, .networkStatus _ _ _ _, lines) => !lines.isEmpty
  | _ => false

def statusEmitTimes (out : List (Nat × NetEvent × List LogLine)) : List Nat :=
  (out.filter isStatusEmit).map (fun x => x.1)

@[simp] lemma runBridge_nil (st : BridgeState) : runBridge st [] = [] := rfl

@[simp] lemma runBridge_cons (st : BridgeState) (t : Nat) (e : NetEvent)
    (rest : List (Nat × NetEvent)) :
    runBridge st ((t, e) :: rest) =
      (t, e, (network_event_callback t st e).2) ::
        runBridge (network_event_callback t st e).1 rest := rfl

@[simp] lemma statusEmitTimes_nil : statusEmitTimes [] = [] := rfl

@[simp] lemma statusEmitTimes_cons (x : Nat × NetEvent × List LogLine)
    (out : List (Nat × NetEvent × List LogLine)) :
    statusEmitTimes (x :: out) =
      if isStatusEmit x then x.1 :: statusEmitTimes out
      else statusEmitTimes out := by
  unfold statusEmitTimes
  rw [List.filter_cons]
  split <;> simp_all

lemma callback_fst_networkStatus (now : Nat) (st : BridgeState)
    (b d k n : Nat) :
    (network_event_callback now st (.networkStatus b d k n)).1 =
      if 60 < now - st.lastPeerLog then ⟨now, n⟩
      else ⟨st.lastPeerLog, n⟩ := by
  unfold network_event_callback
  by_cases hf : 60 < now - st.lastPeerLog
  · by_cases h0 : n = 0
    · simp [hf, h0]
    · by_cases h1 : n < 2 <;> simp [hf, h0, h1]
  · simp [hf]

lemma callback_snd_networkStatus_fired (now : Nat) (st : BridgeState)
    (b d k n : Nat) (hf : 60 < now - st.lastPeerLog) :
    (network_event_callback now st (.networkStatus b d k n)).2 =
      if n = 0 then [.noPeers]
      else if n < 2 then [.networkSummary n b, .fewPeers]
      else [.networkSummary n b] := by
  unfold network_event_callback
  by_cases h0 : n = 0
  · simp [hf, h0]
  · by_cases h1 : n < 2 <;> simp [hf, h0, h1]

lemma callback_snd_networkStatus_silent (now : Nat) (st : BridgeState)
    (b d k n : Nat) (hf : ¬ 60 < now - st.lastPeerLog) :
    (network_event_callback now st (.networkStatus b d k n)).2 = [] := by
  unfold network_event_callback
  simp [hf]

lemma callback_snd_networkStatus_fired_ne (now : Nat) (st : BridgeState)
    (b d k n : Nat) (hf : 60 < now - st.lastPeerLog) :
    (network_event_callback now st (.networkStatus b d k n)).2 ≠ [] := by
  rw [callback_snd_networkStatus_fired now st b d k n hf]
  by_cases h0 : n = 0
  · simp [h0]
  · by_cases h1 : n < 2 <;> simp [h0, h1]

lemma statusEmit_gt (evs : List (Nat × NetEvent)) :
    ∀ (st : BridgeState) (t : Nat), t ∈ statusEmitTimes (runBridge st evs) →
      st.lastPeerLog + 60 < t := by
  induction evs with
  | nil =>
    intro st t h
    simp at h
  | cons p rest ih =>
    intro st t h
    obtain ⟨t0, e0⟩ := p
    rw [runBridge_cons, statusEmitTimes_cons] at h
    cases e0 with
    | networkStatus b d k n =>
      by_cases hf : 60 < t0 - st.lastPeerLog
      · have hfst := callback_fst_networkStatus t0 st b d k n
        rw [if_pos hf] at hfst
        have hne := callback_snd_networkStatus_fired_ne t0 st b d k n hf
        have hemit : isStatusEmit
            (t0, NetEvent.networkStatus b d k n,
              (network_event_callback t0 st (.networkStatus b d k n)).2) = true := by
          simp [isStatusEmit, List.isEmpty_eq_true]
          exact hne
        rw [if_pos hemit, hfst] at h
        rcases List.mem_cons.mp h with rfl | hm
        · omega
        · have htail := ih ⟨t0, n⟩ t hm
          simp only at htail
          omega
      · have hfst := callback_fst_networkStatus t0 st b d k n
        rw [if_neg hf] at hfst
        have hz := callback_snd_networkStatus_silent t0 st b d k n hf
        have hemit : isStatusEmit
            (t0, NetEvent.networkStatus b d k n,
              (network_event_callback t0 st (.networkStatus b d k n)).2) = false := by
          simp [isStatusEmit, hz]
        rw [if_neg (by simp [hemit]), hfst] at h
        have htail := ih ⟨st.lastPeerLog, n⟩ t h
        simpa using htail
    | blockchainChanged idx =>
      rw [if_neg (by simp [isStatusEmit])] at h
      exact ih _ t h
    | newBlockReceived =>
      rw [if_neg (by simp [isStatusEmit])] at h
      exact ih _ t h
    | syncingEvent hv ht =>
      rw [if_neg (by simp [isStatusEmit])] at h
      exact ih _ t h
    | syncFinished =>
      rw [if_neg (by simp [isStatusEmit])] at h
      exact ih _ t h
    | otherEvent =>
      rw [if_neg (by simp [isStatusEmit])] at h
      exact ih _ t h

lemma statusEmit_pairwise (evs : List (Nat × NetEvent)) :
    ∀ st : BridgeState,
      (statusEmitTimes (runBridge st evs)).Pairwise (fun a b => a + 60 < b) := by
  induction evs with
  | nil =>
    intro st
    simp
  | cons p rest ih =>
    intro st
    obtain ⟨t0, e0⟩ := p
    rw [runBridge_cons, statusEmitTimes_cons]
    cases e0 with
    | networkStatus b d k n =>
      by_cases hf : 60 < t0 - st.lastPeerLog
      · have hfst := callback_fst_networkStatus t0 st b d k n
        rw [if_pos hf] at hfst
        have hne := callback_snd_networkStatus_fired_ne t0 st b d k n hf
        have hemit : isStatusEmit
            (t0, NetEvent.networkStatus b d k n,
              (network_event_callback t0 st (.networkStatus b d k n)).2) = true := by
          simp [isStatusEmit, List.isEmpty_eq_true]
          exact hne
        rw [if_pos hemit, hfst]
        refine List.pairwise_cons.mpr ⟨?_, ih _⟩
        intro t hm
        have := statusEmit_gt rest ⟨t0, n⟩ t hm
        simpa using this
      · have hfst := callback_fst_networkStatus t0 st b d k n
        rw [if_neg hf] at hfst
        have hz := callback_snd_networkStatus_silent t0 st b d k n hf
        have hemit : isStatusEmit
            (t0, NetEvent.networkStatus b d k n,
              (network_event_callback t0 st (.networkStatus b d k n)).2) = false := by
          simp [isStatusEmit, hz]
        rw [if_neg (by simp [hemit]), hfst]
        exact ih _
    | blockchainChanged idx =>
      rw [if_neg (by simp [isStatusEmit])]
      exact ih _
    | newBlockReceived =>
      rw [if_neg (by simp [isStatusEmit])]
      exact ih _
    | syncingEvent hv ht =>
      rw [if_neg (by simp [isStatusEmit])]
      exact ih _
    | syncFinished =>
      rw [if_neg (by simp [isStatusEmit])]
      exact ih _
    | otherEvent =>
      rw [if_neg (by simp [isStatusEmit])]
      exact ih _

lemma pairwise_window_le_one {l : List Nat}
    (hp : l.Pairwise (fun a b => a + 60 < b)) (w : Nat) :
    (l.filter (fun t => decide (w ≤ t ∧ t ≤ w + 60))).length ≤ 1 := by
  have hp' : (l.filter (fun t => decide (w ≤ t ∧ t ≤ w + 60))).Pairwise
      (fun a b => a + 60 < b) := List.Pairwise.filter _ hp
  cases hfl : l.filter (fun t => decide (w ≤ t ∧ t ≤ w + 60)) with
  | nil => simp
  | cons a tl =>
    cases tl with
    | nil => simp
    | cons b tl2 =>
      exfalso
      rw [hfl] at hp'
      have hab : a + 60 < b := (List.pairwise_cons.mp hp').1 b (by simp)
      have hamem : a ∈ l.filter (fun t => decide (w ≤ t ∧ t ≤ w + 60)) := by
        rw [hfl]; exact List.mem_cons_self a _
      have hbmem : b ∈ l.filter (fun t => decide (w ≤ t ∧ t ≤ w + 60)) := by
        rw [hfl]; simp
      have ha : w ≤ a ∧ a ≤ w + 60 := by
        have := List.of_mem_filter hamem
        simpa using this
      have hb : w ≤ b ∧ b ≤ w + 60 := by
        have := List.of_mem_filter hbmem
        simpa using this
      omega

/-- Claim C1: startDnsServer is idempotent while the service is Running:
for every call made when the running flag is already set (with JNI string
marshalling succeeding), the call returns true immediately and spawns no
additional UDP, TCP, or Network worker, and no initialization task is
launched; the worker handles are left untouched. -/
theorem startDnsServer_idempotent_when_running
    (now : Nat) (init : InitOutcome) (st : GlobalState)
    (h : st.dnsRunning = true) :
    (startDnsServer now true init st).1 = true ∧
    (startDnsServer now true init st).2.2 = ⟨0, 0, 0, 0⟩ ∧
    (startDnsServer now true init st).2.1.udpHandle = st.udpHandle ∧
    (startDnsServer now true init st).2.1.tcpHandle = st.tcpHandle ∧
    (startDnsServer now true init st).2.1.networkHandle = st.networkHandle := by
  unfold startDnsServer
  simp [h]

/-- Witness for C1: a concrete already-running state. -/
theorem startDnsServer_idempotent_when_running_witness :
    ({ initialState with dnsRunning := true } : GlobalState).dnsRunning = true ∧
    (startDnsServer 7 true (.failed "boom")
      { initialState with dnsRunning := true }).1 = true ∧
    (startDnsServer 7 true (.failed "boom")
      { initialState with dnsRunning := true }).2.2 = ⟨0, 0, 0, 0⟩ :=
  ⟨rfl,
    (startDnsServer_idempotent_when_running 7 (.failed "boom") _ rfl).1,
    (startDnsServer_idempotent_when_running 7 (.failed "boom") _ rfl).2.1⟩

/-- Claim C2: stopDnsServer called when the service is not Running returns
false and performs no state change at all: the LogBuffer, the Statistics
(inside the server context), the shutdown flag, the worker handles and the
context references are exactly as before the call. -/
theorem stopDnsServer_not_running_noop
    (now : Nat) (u t : Bool) (st : GlobalState)
    (h : st.dnsRunning = false) :
    stopDnsServer now u t st = (false, st) := by
  unfold stopDnsServer
  simp [h]

/-- Witness for C2: the pristine initial state is not running and is
returned unchanged. -/
theorem stopDnsServer_not_running_noop_witness :
    initialState.dnsRunning = false ∧
    stopDnsServer 3 true true initialState = (false, initialState) :=
  ⟨rfl, stopDnsServer_not_running_noop 3 true true initialState rfl⟩

lemma stopRunningBranch_fields (now : Nat) (u t : Bool) (st : GlobalState) :
    (stopRunningBranch now u t st).dnsRunning = false ∧
    (stopRunningBranch now u t st).serverContext = none ∧
    (stopRunningBranch now u t st).alfisContext = none ∧
    (stopRunningBranch now u t st).networkPeerCount = 0 := by
  unfold stopRunningBranch
  simp [apply_ite GlobalState.dnsRunning, apply_ite GlobalState.serverContext,
    apply_ite GlobalState.alfisContext, apply_ite GlobalState.networkPeerCount]

/- A concrete running state used as explicit input for counterexamples. -/
def runningSample : GlobalState :=
  { initialState with
    dnsRunning := true,
    serverContext := some ⟨true, true, ⟨0, 0⟩⟩,
    alfisContext := some ⟨0⟩ }

/-- Counterexample for C3: after a successful stop the stats string is NOT
the claimed exact string without spaces,
`{"blocks":0,"peers":0,"queries":0,"responses":0}` (the Rust format string
puts a space after each colon). -/
theorem getDnsStats_after_stop_counterexample :
    (stopDnsServer 5 true true runningSample).1 = true ∧
    getDnsStats (stopDnsServer 5 true true runningSample).2 ≠
      "\x7b\"blocks\":0,\"peers\":0,\"queries\":0,\"responses\":0\x7d" := by
  constructor
  · rfl
  · decide

/-- Claim C3 (amended): after a successful stopDnsServer call,
isDnsServerRunning returns false and getDnsStats returns the all-zero
statistics as the exact JSON string
`{"blocks": 0, "peers": 0, "queries": 0, "responses": 0}` (one space after
each colon, as produced by the source format string). -/
theorem stop_success_status_and_stats
    (now : Nat) (u t : Bool) (st : GlobalState)
    (h : st.dnsRunning = true) :
    (stopDnsServer now u t st).1 = true ∧
    isDnsServerRunning (stopDnsServer now u t st).2 = false ∧
    getDnsStats (stopDnsServer now u t st).2 =
      "\x7b\"blocks\": 0, \"peers\": 0, \"queries\": 0, \"responses\": 0\x7d" := by
  have hf := stopRunningBranch_fields now u t st
  unfold stopDnsServer
  simp only [h, if_true]
  refine ⟨by trivial, ?_, ?_⟩
  · simpa [isDnsServerRunning] using hf.1
  · unfold getDnsStats
    rw [hf.1]
    simp [stoppedStatsJson]

/-- Witness for C3 (amended): the concrete running sample state. -/
theorem stop_success_status_and_stats_witness :
    runningSample.dnsRunning = true ∧
    isDnsServerRunning (stopDnsServer 9 true false runningSample).2 = false ∧
    getDnsStats (stopDnsServer 9 true false runningSample).2 =
      "\x7b\"blocks\": 0, \"peers\": 0, \"queries\": 0, \"responses\": 0\x7d" :=
  ⟨rfl, (stop_success_status_and_stats 9 true false runningSample rfl).2.1,
    (stop_success_status_and_stats 9 true false runningSample rfl).2.2⟩

/-- Claim C4: for every sequence of appends to an initialized (empty)
LogBuffer, each appended line is stored with its Unix-timestamp marker
("[ts] msg") at the back of the sequence, the buffer never holds more than
100 lines, and eviction removes the oldest line first: after any sequence
of appends the buffer is exactly the most recent min(n,100) formatted
lines in order; in particular 150 appends leave exactly the most recent
100 entries. -/
theorem log_buffer_bounded_fifo (msgs : List (Nat × String)) :
    appendMsgs msgs [] =
      (msgs.map (fun m => fmtLog m.1 m.2)).drop (msgs.length - 100) ∧
    (appendMsgs msgs []).length = min msgs.length 100 ∧
    (msgs.length = 150 →
      appendMsgs msgs [] = (msgs.map (fun m => fmtLog m.1 m.2)).drop 50) := by
  have h := appendMsgs_eq msgs [] (by simp)
  have hl := appendMsgs_length msgs [] (by simp)
  simp only [List.nil_append, List.length_nil, Nat.zero_add] at h hl
  refine ⟨h, hl, ?_⟩
  intro h150
  rw [h, h150]

/-- Witness for C4: 150 appends of a concrete line leave the most recent
100 entries. -/
theorem log_buffer_bounded_fifo_witness :
    (List.replicate 150 ((0 : Nat), "line")).length = 150 ∧
    appendMsgs (List.replicate 150 ((0 : Nat), "line")) [] =
      ((List.replicate 150 ((0 : Nat), "line")).map
        (fun m => fmtLog m.1 m.2)).drop 50 :=
  ⟨by simp, (log_buffer_bounded_fifo (List.replicate 150 ((0 : Nat), "line"))).2.2
    (by simp)⟩

/-- Claim C10: before initLogging has initialized the log buffer,
getConsoleOutput returns the literal string "Log buffer not initialized",
and any line appended during that time is silently discarded (the state is
unchanged, so it can never appear in a later snapshot). -/
theorem log_uninitialized_behavior (st : GlobalState)
    (h : st.logBuffer = none) :
    getConsoleOutput st = "Log buffer not initialized" ∧
    ∀ now msg, add_log_message now msg st = st := by
  constructor
  · unfold getConsoleOutput
    rw [h]
  · intro now msg
    unfold add_log_message
    rw [h]

/-- Witness for C10: the initial state has no buffer. -/
theorem log_uninitialized_behavior_witness :
    initialState.logBuffer = none ∧
    getConsoleOutput initialState = "Log buffer not initialized" ∧
    add_log_message 1 "dropped" initialState = initialState :=
  ⟨rfl, (log_uninitialized_behavior initialState rfl).1,
    (log_uninitialized_behavior initialState rfl).2 1 "dropped"⟩

/-- Claim C5: database initialization catches a panic during chain
construction and converts it into an explicit error; and for every failure
mode at the requested path (storage open error, pre-flight query error, or
caught panic — all surfacing as an error of create_chain_safely) the
initializer retries exactly once against the in-memory backend, and only
if that second attempt also fails does start-up initialization return an
error. -/
theorem chain_init_panic_and_fallback {C : Type} (env : ChainEnv C)
    (path : String) :
    (∀ m, env.sqliteOpen path = .ok () → env.sqliteExec path = .ok () →
      env.chainNew path = .panicked (.msg m) →
      create_chain_safely env path =
        .error ("Chain creation panicked: " ++ m)) ∧
    (∀ c, create_chain_safely env path = .ok c →
      chain_init env path = .ok c ∧ chain_init_attempts env path = [path]) ∧
    (∀ e, create_chain_safely env path = .error e →
      chain_init_attempts env path = [path, ":memory:"] ∧
      (∀ c, create_chain_safely env ":memory:" = .ok c →
        chain_init env path = .ok c) ∧
      (∀ e2, create_chain_safely env ":memory:" = .error e2 →
        chain_init env path =
          .error "Blockchain initialization failed completely")) := by
  refine ⟨?_, ?_, ?_⟩
  · intro m h1 h2 h3
    unfold create_chain_safely
    rw [h1, h2, h3]
  · intro c h
    constructor
    · unfold chain_init
      rw [h]
    · unfold chain_init_attempts
      rw [h]
  · intro e h
    refine ⟨?_, ?_, ?_⟩
    · unfold chain_init_attempts
      rw [h]
    · intro c h2
      unfold chain_init
      rw [h, h2]
    · intro e2 h2
      unfold chain_init
      rw [h, h2]

/- Concrete chain environment for the C5 witness: the sqlite pre-flight
   succeeds everywhere, Chain::new panics at any file path and succeeds
   in memory. -/
def chainEnvSample : ChainEnv Nat :=
  { sqliteOpen := fun _ => .ok (),
    sqliteExec := fun _ => .ok (),
    chainNew := fun p =>
      if p = ":memory:" then .built 0 else .panicked (.msg "boom") }

/-- Witness for C5: at the concrete path "/data/alfis.db" the panic is
caught as an error and the in-memory retry succeeds. -/
theorem chain_init_panic_and_fallback_witness :
    chainEnvSample.sqliteOpen "/data/alfis.db" = .ok () ∧
    chainEnvSample.chainNew "/data/alfis.db" = .panicked (.msg "boom") ∧
    create_chain_safely chainEnvSample "/data/alfis.db" =
      .error "Chain creation panicked: boom" ∧
    chain_init_attempts chainEnvSample "/data/alfis.db" =
      ["/data/alfis.db", ":memory:"] ∧
    chain_init chainEnvSample "/data/alfis.db" = .ok 0 := by
  have w := chain_init_panic_and_fallback chainEnvSample "/data/alfis.db"
  have e1 : create_chain_safely chainEnvSample "/data/alfis.db" =
      .error "Chain creation panicked: boom" :=
    w.1 "boom" rfl rfl (by decide)
  have w2 := w.2.2 "Chain creation panicked: boom" e1
  exact ⟨rfl, by decide, e1, w2.1, w2.2.1 0 rfl⟩

/- Concrete codec for the C6 counterexample: every datagram decodes, but
   the response does not fit the 512-byte output buffer (encode fails). -/
def udpCodecEncodeFails : UdpCodec Nat Nat :=
  { decode := fun _ => some 0,
    execQuery := fun q => q,
    encode := fun _ => none }

/-- Counterexample for C6: a datagram whose decode succeeds but whose
response fails to encode into the 512-byte buffer yields NO reply and NO
counter increment, contradicting the claim that a successful decode always
leads to a sent response and a counter increment of exactly 1. -/
theorem udp_decode_success_no_reply_counterexample :
    (udpCodecEncodeFails.decode (pad512 [1, 2, 3])).isSome = true ∧
    (udp_datagram_step udpCodecEncodeFails true [1, 2, 3]).reply = none ∧
    (udp_datagram_step udpCodecEncodeFails true [1, 2, 3]).counterDelta = 0 :=
  ⟨rfl, rfl, rfl⟩

/-- Claim C6 (amended): in the UDP worker loop, for every received
datagram: if decoding fails the datagram is silently dropped (no reply,
counter unchanged); if decoding succeeds AND the response encodes into the
512-byte buffer, the query is resolved, the response is sent to the
originating address, and udp_query_count increases by exactly 1; if
decoding succeeds but encoding fails, no reply is sent and the counter is
unchanged. -/
theorem udp_datagram_behavior {Q R : Type} (c : UdpCodec Q R)
    (sendOk : Bool) (d : List Nat) :
    (c.decode (pad512 d) = none →
      udp_datagram_step c sendOk d = ⟨none, 0⟩) ∧
    (∀ q out, c.decode (pad512 d) = some q →
      c.encode (c.execQuery q) = some out →
      udp_datagram_step c sendOk d = ⟨some out, 1⟩) ∧
    (∀ q, c.decode (pad512 d) = some q →
      c.encode (c.execQuery q) = none →
      udp_datagram_step c sendOk d = ⟨none, 0⟩) := by
  refine ⟨?_, ?_, ?_⟩
  · intro h
    unfold udp_datagram_step
    rw [h]
  · intro q out h1 h2
    unfold udp_datagram_step
    rw [h1]
    simp only [h2]
  · intro q h1 h2
    unfold udp_datagram_step
    rw [h1]
    simp only [h2]

/- Concrete codec for the C6 witness: everything succeeds. -/
def udpCodecOk : UdpCodec Nat Nat :=
  { decode := fun _ => some 7,
    execQuery := fun q => q + 1,
    encode := fun r => some [r] }

/-- Witness for C6 (amended): a concrete datagram that decodes, resolves
and encodes, yielding exactly one reply and one counter increment. -/
theorem udp_datagram_behavior_witness :
    udpCodecOk.decode (pad512 [9]) = some 7 ∧
    udpCodecOk.encode (udpCodecOk.execQuery 7) = some [8] ∧
    udp_datagram_step udpCodecOk false [9] = ⟨some [8], 1⟩ :=
  ⟨rfl, rfl, (udp_datagram_behavior udpCodecOk false [9]).2.1 7 [8] rfl rfl⟩

/-- Claim C9: for every datagram processed by the UDP worker,
udp_query_count is incremented exactly when both the decode of the request
and the encoding of the response into the 512-byte buffer succeed; the
result is independent of whether sending succeeded (the send result is
discarded), so a failed send still counts; and a reply is attempted exactly
when the counter is incremented, so a response too large to encode counts
nothing and sends no reply. -/
theorem udp_counter_iff_decode_encode {Q R : Type} (c : UdpCodec Q R)
    (s1 s2 : Bool) (d : List Nat) :
    udp_datagram_step c s1 d = udp_datagram_step c s2 d ∧
    ((udp_datagram_step c s1 d).counterDelta = 1 ↔
      ∃ q, c.decode (pad512 d) = some q ∧
        (c.encode (c.execQuery q)).isSome = true) ∧
    ((udp_datagram_step c s1 d).counterDelta = 1 ∨
      (udp_datagram_step c s1 d).counterDelta = 0) ∧
    ((udp_datagram_step c s1 d).reply.isSome = true ↔
      (udp_datagram_step c s1 d).counterDelta = 1) := by
  unfold udp_datagram_step
  cases hd : c.decode (pad512 d) with
  | none => simp
  | some q =>
    cases he : c.encode (c.execQuery q) with
    | none => simp [he]
    | some out => simp [he]

/-- Claim C7: for every accepted TCP connection, the per-connection
handler expects at least a 2-byte big-endian length header followed by the
query payload, decodes the payload, resolves it, writes back the response
preceded by a matching 2-byte big-endian length header, and increments
tcp_query_count; on any read, short-read, decode, or encode failure the
connection is closed silently with no response written and no counter
increment. -/
theorem tcp_client_behavior {Q R : Type} (c : TcpConn Q R) :
    (c.readResult = none → handle_tcp_client c = ⟨[], 0⟩) ∧
    (∀ bytes, c.readResult = some bytes → bytes.length < 2 →
      handle_tcp_client c = ⟨[], 0⟩) ∧
    (∀ bytes, c.readResult = some bytes → 2 ≤ bytes.length →
      c.decode (pad512 (bytes.drop 2)) = none →
      handle_tcp_client c = ⟨[], 0⟩) ∧
    (∀ bytes q, c.readResult = some bytes → 2 ≤ bytes.length →
      c.decode (pad512 (bytes.drop 2)) = some q →
      c.encode (c.execQuery q) = none →
      handle_tcp_client c = ⟨[], 0⟩) ∧
    (∀ bytes q out, c.readResult = some bytes → 2 ≤ bytes.length →
      c.decode (pad512 (bytes.drop 2)) = some q →
      c.encode (c.execQuery q) = some out →
      handle_tcp_client c = ⟨be16 out.length ++ out, 1⟩ ∧
        (be16 out.length).length = 2) := by
  refine ⟨?_, ?_, ?_, ?_, ?_⟩
  · intro h
    unfold handle_tcp_client
    rw [h]
  · intro bytes h hlen
    unfold handle_tcp_client
    rw [h]
    simp only [if_neg (by omega : ¬ 2 ≤ bytes.length)]
  · intro bytes h hlen hdec
    unfold handle_tcp_client
    rw [h]
    simp only [if_pos hlen, hdec]
  · intro bytes q h hlen hdec henc
    unfold handle_tcp_client
    rw [h]
    simp only [if_pos hlen, hdec, henc]
  · intro bytes q out h hlen hdec henc
    constructor
    · unfold handle_tcp_client
      rw [h]
      simp only [if_pos hlen, hdec, henc]
    · rfl

/- Concrete connection for the C7 witness: a 4-byte read (2-byte header
   plus payload), a codec that succeeds end to end. -/
def tcpConnOk : TcpConn Nat Nat :=
  { readResult := some [0, 2, 5, 6],
    decode := fun _ => some 5,
    execQuery := fun q => q * 2,
    encode := fun r => some [r, r] }

/-- Witness for C7: the concrete connection produces the length-prefixed
response [0, 2, 10, 10] and one counter increment. -/
theorem tcp_client_behavior_witness :
    tcpConnOk.readResult = some [0, 2, 5, 6] ∧
    tcpConnOk.decode (pad512 ([0, 2, 5, 6].drop 2)) = some 5 ∧
    tcpConnOk.encode (tcpConnOk.execQuery 5) = some [10, 10] ∧
    handle_tcp_client tcpConnOk = ⟨[0, 2, 10, 10], 1⟩ :=
  ⟨rfl, rfl, rfl,
    ((tcp_client_behavior tcpConnOk).2.2.2.2 [0, 2, 5, 6] 5 [10, 10]
      rfl (by simp) rfl rfl).1⟩

/-- Claim C8: in the event-bridge callback, for every sequence of events
at most one peer/block summary emission happens per rolling 60-second
window — any two NetworkStatus events that emit log lines are more than 60
seconds apart (the gate is the process-wide LAST_PEER_LOG timestamp), so
any window [w, w+60] contains at most one emission; the fired emission has
distinct wording for nodes = 0 (no-peers warning), nodes < 2 (summary plus
few-peers advisory) and the healthy case (summary only); whereas every
Syncing event unconditionally appends one progress line carrying
have/height (from which the printed percentage is computed). -/
theorem event_bridge_rate_limit :
    (∀ (st : BridgeState) (evs : List (Nat × NetEvent)),
      (statusEmitTimes (runBridge st evs)).Pairwise (fun a b => a + 60 < b)) ∧
    (∀ (st : BridgeState) (evs : List (Nat × NetEvent)) (w : Nat),
      ((statusEmitTimes (runBridge st evs)).filter
        (fun t => decide (w ≤ t ∧ t ≤ w + 60))).length ≤ 1) ∧
    (∀ now (st : BridgeState) b d k n, 60 < now - st.lastPeerLog →
      (network_event_callback now st (.networkStatus b d k n)).2 =
        if n = 0 then [.noPeers]
        else if n < 2 then [.networkSummary n b, .fewPeers]
        else [.networkSummary n b]) ∧
    (∀ now (st : BridgeState) b d k n, ¬ 60 < now - st.lastPeerLog →
      (network_event_callback now st (.networkStatus b d k n)).2 = []) ∧
    (∀ now (st : BridgeState) hv ht,
      network_event_callback now st (.syncingEvent hv ht) =
        (st, [.syncProgress hv ht])) := by
  refine ⟨?_, ?_, ?_, ?_, ?_⟩
  · intro st evs
    exact statusEmit_pairwise evs st
  · intro st evs w
    exact pairwise_window_le_one (statusEmit_pairwise evs st) w
  · intro now st b d k n hf
    exact callback_snd_networkStatus_fired now st b d k n hf
  · intro now st b d k n hf
    exact callback_snd_networkStatus_silent now st b d k n hf
  · intro now st hv ht
    rfl

/-- Witness for C8: a concrete run in which NetworkStatus events arriving
every second inside one 60-second window emit exactly once, and a Syncing
event logs unconditionally. -/
theorem event_bridge_rate_limit_witness :
    (60 : Nat) < 100 - (⟨0, 0⟩ : BridgeState).lastPeerLog ∧
    (network_event_callback 100 ⟨0, 0⟩ (.networkStatus 5 0 0 0)).2 =
      [.noPeers] ∧
    ¬ (60 : Nat) < 101 - (⟨100, 0⟩ : BridgeState).lastPeerLog ∧
    (network_event_callback 101 ⟨100, 0⟩ (.networkStatus 5 0 0 3)).2 = [] ∧
    ((statusEmitTimes (runBridge ⟨0, 0⟩
        [(100, .networkStatus 5 0 0 0), (101, .networkStatus 5 0 0 3),
         (130, .networkStatus 6 0 0 1)])).filter
      (fun t => decide (100 ≤ t ∧ t ≤ 160))).length ≤ 1 ∧
    network_event_callback 101 ⟨100, 0⟩ (.syncingEvent 40 80) =
      (⟨100, 0⟩, [.syncProgress 40 80]) := by
  refine ⟨by decide, ?_, by decide, ?_, ?_, ?_⟩
  · have h := event_bridge_rate_limit.2.2.1 100 ⟨0, 0⟩ 5 0 0 0 (by decide)
    simpa using h
  · exact event_bridge_rate_limit.2.2.2.1 101 ⟨100, 0⟩ 5 0 0 3 (by decide)
  · exact event_bridge_rate_limit.2.1 ⟨0, 0⟩
      [(100, .networkStatus 5 0 0 0), (101, .networkStatus 5 0 0 3),
       (130, .networkStatus 6 0 0 1)] 100
  · exact event_bridge_rate_limit.2.2.2.2 101 ⟨100, 0⟩ 40 80
